import Mathlib

/-!
Verification development for the entity version lookup engine of a versioned
entity graph store (`Lookup.Details` and its helpers `loadDetails`,
`loadChanges` from the `entity` package).

The source code is embedded shallowly:

* stored snapshot documents (`map[string]interface{}` values produced by
  `json.Unmarshal`) are abstracted to an opaque decoded payload `Doc := Nat`;
  the claims only compare documents for equality;
* the badger key/value store is a list of `(key, value)` entries; badger's
  guarantee that prefix iteration visits keys in ascending key order with no
  duplicate keys is captured by the well-formedness predicate `Snapshot.WF`
  (the stored lists are strictly sorted in key order, so prefix iteration is
  plain filtering of those lists);
* `Details` opens a read-only transaction whose view is the snapshot fixed at
  open time; the dataset registry operations (`LookupDatasetIDs`,
  `IsDatasetDeleted`, `LookupDatasetName`) are called on the store wrapper
  itself, not through the transaction, so they read a separate `SideState`;
* fallible Go code returning `(T, error)` becomes `Except Err T`.
-/

/-- Abstract decoded snapshot document (the `map[string]interface{}` result of
`json.Unmarshal`); claims compare documents only for equality, so an opaque
payload suffices. -/
abbrev Doc := Nat

/-- Stored value bytes: either bytes that decode to a document, or bytes on
which `json.Unmarshal` fails. -/
inductive Val where
  | doc (d : Doc)
  | corrupt
deriving DecidableEq, Repr

/-- Error taxonomy of the lookup engine: identifier compaction failure,
unresolved internal id, and decode (json.Unmarshal) failure. -/
inductive Err where
  | invalidIdentifier
  | notFound
  | corrupt
deriving DecidableEq, Repr

instance {ε α : Type} [DecidableEq ε] [DecidableEq α] : DecidableEq (Except ε α)
  | .error a, .error b =>
    if h : a = b then .isTrue (h ▸ rfl) else .isFalse fun hh => h (Except.error.inj hh)
  | .error _, .ok _ => .isFalse Except.noConfusion
  | .ok _, .error _ => .isFalse Except.noConfusion
  | .ok a, .ok b =>
    if h : a = b then .isTrue (h ▸ rfl) else .isFalse fun hh => h (Except.ok.inj hh)

/-- The `json.Unmarshal` call on a stored value. -/
def unmarshal : Val → Except Err Doc
  | .doc d => .ok d
  | .corrupt => .error .corrupt

/-- Total decoding helper used only to phrase specifications (defaults corrupt
bytes to document `0`; wherever it is used, a hypothesis guarantees the bytes
decode). -/
def decodeD : Val → Doc
  | .doc d => d
  | .corrupt => 0

/-- Key of an Entity Locator Index entry: `(InternalID, InternalDatasetID,
version-ordinal)`, big-endian encoded in the source so that byte order equals
this lexicographic order. -/
structure LocatorKey where
  entity : Nat
  dataset : Nat
  ordinal : Nat
deriving DecidableEq, Repr

/-- Key of an Entity Change Log entry: `(InternalDatasetID, InternalID,
sequence-ordinal)`. -/
structure ChangeKey where
  dataset : Nat
  entity : Nat
  ordinal : Nat
deriving DecidableEq, Repr

/-- Strict lexicographic order on locator keys (the badger byte order of the
big-endian encoding). -/
def locLT (a b : LocatorKey) : Prop :=
  a.entity < b.entity ∨
    (a.entity = b.entity ∧
      (a.dataset < b.dataset ∨ (a.dataset = b.dataset ∧ a.ordinal < b.ordinal)))

/-- Strict lexicographic order on change log keys. -/
def chgLT (a b : ChangeKey) : Prop :=
  a.dataset < b.dataset ∨
    (a.dataset = b.dataset ∧
      (a.entity < b.entity ∨ (a.entity = b.entity ∧ a.ordinal < b.ordinal)))

instance : DecidablePred fun p : LocatorKey × LocatorKey => locLT p.1 p.2 := by
  intro p; unfold locLT; infer_instance

instance (a b : LocatorKey) : Decidable (locLT a b) := by
  unfold locLT; infer_instance

instance (a b : ChangeKey) : Decidable (chgLT a b) := by
  unfold chgLT; infer_instance

/-- The data visible through the read-only transaction's snapshot: the
entity-id registry index (read via the transaction by `InternalIDForCURIE`),
the Entity Locator Index and the Entity Change Log. -/
structure Snapshot where
  entityIds : List (String × Nat)
  locator : List (LocatorKey × Val)
  changes : List (ChangeKey × Val)

/-- Well-formedness of a snapshot as an ordered key-value store: entries are
strictly sorted in key order (hence keys are unique), which is exactly what
badger's prefix iteration order provides. -/
def Snapshot.WF (snap : Snapshot) : Prop :=
  snap.locator.Pairwise (fun p q => locLT p.1 q.1) ∧
    snap.changes.Pairwise (fun p q => chgLT p.1 q.1)

instance (snap : Snapshot) : Decidable snap.WF := by
  unfold Snapshot.WF; infer_instance

/-- Live (non-transactional) state of the store wrapper backing the dataset
registry calls that `Details`/`loadDetails` make on `l.badger` directly,
without passing the read transaction. -/
structure SideState where
  datasetIds : List (String × Nat)
  deletedIds : List Nat
  datasetNames : List (Nat × String)

/-- First-match association list lookup (the read path of the registry
tables). -/
def assocGet {α β : Type} [DecidableEq α] (k : α) : List (α × β) → Option β
  | [] => none
  | (k', v) :: rest => if k' = k then some v else assocGet k rest

/-- Go-map style insert: overwrite the binding in place if the key is present,
append otherwise. -/
def assocSet {α β : Type} [DecidableEq α] (k : α) (v : β) : List (α × β) → List (α × β)
  | [] => [(k, v)]
  | (k', v') :: rest => if k' = k then (k, v) :: rest else (k', v') :: assocSet k v rest

/-- Modelled from the spec (the implementation of `isDatasetDeleted` is not in
the provided sources): `isDatasetDeleted(InternalDatasetID) -> bool`, the
dataset-deletion tombstone predicate maintained by the garbage collector.
Read from live store state, not through the read transaction. -/
def IsDatasetDeleted (side : SideState) (d : Nat) : Bool :=
  side.deletedIds.contains d

/-- Modelled from the spec (the implementation of `datasetName` is not in the
provided sources): `datasetName(InternalDatasetID) -> (name, found)`. Read
from live store state, not through the read transaction. -/
def LookupDatasetName (side : SideState) (d : Nat) : Option String :=
  assocGet d side.datasetNames

/-- Modelled from the spec (the implementation of `resolveDatasetsByName` is
not in the provided sources): names not found are silently dropped from the
result. Read from live store state, not through the read transaction. -/
def LookupDatasetIDs (side : SideState) (names : List String) : List Nat :=
  names.filterMap fun n => assocGet n side.datasetIds

/-- Modelled from the spec (the implementation of `resolveEntity` is not in
the provided sources): resolve a curie to its `InternalID` through the
caller-supplied transaction; fails with `NotFound` if the identifier has never
been assigned. -/
def InternalIDForCURIE (snap : Snapshot) (curie : String) : Except Err Nat :=
  match assocGet curie snap.entityIds with
  | some i => .ok i
  | none => .error .notFound

/-- Modelled from the spec (`store.SeekEntity` is not in the provided
sources): prefix iteration over the Entity Locator Index restricted to one
entity's `InternalID` prefix; for a `Snapshot.WF` store the stored list is
already in ascending key order, so prefix iteration is filtering. -/
def locatorScan (snap : Snapshot) (e : Nat) : List (LocatorKey × Val) :=
  snap.locator.filter fun p => p.1.entity == e

/-- Modelled from the spec (`store.SeekEntityChanges` is not in the provided
sources): prefix iteration over the Entity Change Log restricted to one
`(InternalDatasetID, InternalID)` prefix, in ascending key order. -/
def changesScan (snap : Snapshot) (ds e : Nat) : List (ChangeKey × Val) :=
  snap.changes.filter fun p => p.1.dataset == ds && p.1.entity == e

/-- The scope test of the locator loop: `datasetIncluded := len(scope) == 0`
followed by the linear scan `for _, id := range scope`. -/
def includedIn (scope : List Nat) (d : Nat) : Bool :=
  scope.isEmpty || scope.any fun i => i == d

/-- The locator-scan loop of `loadDetails`, including the post-loop commit of
the still-pending record. State is `(previousDatasetID, prevValueBytes,
partial-results map)`; `prevValueBytes` starts as Go's nil byte slice, which
fails `json.Unmarshal`, hence the `Val.corrupt` initial value at the call
site; it is never committed while `previousDatasetID = 0`. -/
def locatorLoop (side : SideState) (scope : List Nat) :
    List (LocatorKey × Val) → Nat → Val → List (Nat × Val) → List (Nat × Val)
  | [], prev, prevVal, acc =>
    if prev ≠ 0 then assocSet prev prevVal acc else acc
  | (k, v) :: rest, prev, prevVal, acc =>
    let cur := k.dataset
    if IsDatasetDeleted side cur || !includedIn scope cur then
      locatorLoop side scope rest prev prevVal acc
    else
      let acc' := if prev ≠ 0 ∧ cur ≠ prev then assocSet prev prevVal acc else acc
      locatorLoop side scope rest cur v acc'

/-- The `partials` accumulator as it stands after the locator scan of
`loadDetails` for the given entity and scope. -/
def detailsCommitted (snap : Snapshot) (side : SideState) (e : Nat) (scope : List Nat) :
    List (Nat × Val) :=
  locatorLoop side scope (locatorScan snap e) 0 Val.corrupt []

/-- The iteration body of `loadChanges`: decode every visited entry in scan
order, appending to the result, aborting on the first decode failure. -/
def loadChangesLoop : List (ChangeKey × Val) → Except Err (List Doc)
  | [] => .ok []
  | p :: rest => do
    let entity ← unmarshal p.2
    let restDocs ← loadChangesLoop rest
    .ok (entity :: restDocs)

/-- The `loadChanges` helper: iterate the change log under the
`(InternalDatasetID, InternalID)` prefix, decode every entry, abort on the
first decode failure. -/
def loadChanges (snap : Snapshot) (internalEntityID internalDatasetID : Nat) :
    Except Err (List Doc) :=
  loadChangesLoop (changesScan snap internalDatasetID internalEntityID)

/-- One value of the result map built by `loadDetails`: either the
`"UNEXPECTED: dataset name not found"` diagnostic string inserted when the
dataset name does not resolve, or the `{latest, changes}` structure. -/
inductive ResVal where
  | diag
  | entry (latest : Doc) (changes : List Doc)
deriving DecidableEq, Repr

/-- The result-assembly loop of `loadDetails`: `for internalDatasetID,
entityBytes := range partials`. Go map iteration order is unspecified; the
embedding iterates the accumulator in its list order (for the claims below the
order is immaterial or controlled by explicit key-distinctness hypotheses). -/
def buildResult (snap : Snapshot) (side : SideState) (e : Nat) :
    List (Nat × Val) → List (String × ResVal) → Except Err (List (String × ResVal))
  | [], acc => .ok acc
  | (d, entityBytes) :: rest, acc =>
    match LookupDatasetName side d with
    | none => buildResult snap side e rest (assocSet (toString d) ResVal.diag acc)
    | some n => do
      let entity ← unmarshal entityBytes
      let changes ← loadChanges snap e d
      buildResult snap side e rest (assocSet n (ResVal.entry entity changes) acc)

/-- The `loadDetails` helper: scan the Entity Locator Index under the entity
prefix keeping the last surviving value per dataset, then assemble the
per-dataset-name result map. -/
def loadDetails (snap : Snapshot) (side : SideState) (e : Nat) (scope : List Nat) :
    Except Err (List (String × ResVal)) :=
  buildResult snap side e (detailsCommitted snap side e scope) []

/-- The `Lookup` service struct; its namespace manager is abstracted to the
compaction function `asCURIE`, modelled from the spec (the namespace manager
implementation is not in the provided sources): compaction fails with an
`InvalidIdentifier`-class error when no registered namespace matches. -/
structure Lookup where
  curieOf : String → Except Err String

/-- The `Details` entry point: compact the id, open a read-only transaction
(fixing `snap`), resolve the internal entity id through the transaction,
resolve the dataset-name filter against live store state, and load the
per-dataset details. -/
def Details (lk : Lookup) (snap : Snapshot) (side : SideState)
    (id : String) (datasetNames : List String) : Except Err (List (String × ResVal)) := do
  let curie ← lk.curieOf id
  let internalID ← InternalIDForCURIE snap curie
  let scope := LookupDatasetIDs side datasetNames
  loadDetails snap side internalID scope

/-- Whole mutable store state: the key-value database plus the live dataset
registry read outside the transaction. -/
structure Store where
  snap : Snapshot
  side : SideState

/-- A badger transaction: the snapshot view fixed at open time and the
update flag (`b.NewTransaction(false)` opens a read-only transaction). -/
structure Txn where
  view : Snapshot
  update : Bool

/-- `b.NewTransaction` : the transaction's view is the snapshot at open. -/
def newTransaction (s : Store) (update : Bool) : Txn :=
  { view := s.snap, update := update }

/-- `rtxn.Discard()` : drops the transaction without applying anything; the
store is unchanged. -/
def txnDiscard (_t : Txn) (s : Store) : Store := s

/-- State-passing form of `Details`, mirroring the transaction lifecycle of
the source: the read transaction is opened after identifier compaction and
discarded (per the deferred `rtxn.Discard()`) on every exit path. -/
def DetailsS (lk : Lookup) (s : Store) (id : String) (datasetNames : List String) :
    Except Err (List (String × ResVal)) × Store :=
  match lk.curieOf id with
  | .error e => (.error e, s)
  | .ok curie =>
    let rtxn := newTransaction s false
    match InternalIDForCURIE rtxn.view curie with
    | .error e => (.error e, txnDiscard rtxn s)
    | .ok internalID =>
      let scope := LookupDatasetIDs s.side datasetNames
      match loadDetails rtxn.view s.side internalID scope with
      | .error e => (.error e, txnDiscard rtxn s)
      | .ok r => (.ok r, txnDiscard rtxn s)

/-- The key a dataset id contributes to the result map: its resolved display
name, or its stringified id when the name does not resolve. -/
def resultKey (side : SideState) (d : Nat) : String :=
  match LookupDatasetName side d with
  | some n => n
  | none => toString d

/-- The survival test of the locator loop (negation of its skip condition). -/
def keepEntry (side : SideState) (scope : List Nat) (d : Nat) : Bool :=
  !(IsDatasetDeleted side d) && includedIn scope d

/-- The entity appears in the dataset: the Entity Locator Index holds at least
one entry for the `(entity, dataset)` pair. -/
def appears (snap : Snapshot) (e d : Nat) : Bool :=
  (locatorScan snap e).any fun p => p.1.dataset == d

-- Specification helpers: pure restatements of the loops used to phrase and
-- prove properties about them; each is related to the corresponding source
-- loop by a proved lemma below.

/-- The locator loop after discarding skipped entries and projecting each
survivor to its `(datasetID, valueBytes)` content (proved equal to
`locatorLoop` on the filtered projection, see `locatorLoop_eq_commitLoop`). -/
def commitLoop : List (Nat × Val) → Nat → Val → List (Nat × Val) → List (Nat × Val)
  | [], prev, prevVal, acc =>
    if prev ≠ 0 then assocSet prev prevVal acc else acc
  | (c, v) :: rest, prev, prevVal, acc =>
    commitLoop rest c v (if prev ≠ 0 ∧ c ≠ prev then assocSet prev prevVal acc else acc)

/-- The surviving locator entries of a scan, projected to
`(datasetID, valueBytes)` pairs. -/
def keptProj (side : SideState) (scope : List Nat) (entries : List (LocatorKey × Val)) :
    List (Nat × Val) :=
  (entries.filter fun q => keepEntry side scope q.1.dataset).map fun q => (q.1.dataset, q.2)

/-- Whether a `(datasetID, valueBytes)` list holds an entry for the dataset. -/
def hasKey (gs : List (Nat × Val)) (d : Nat) : Bool :=
  gs.any fun p => p.1 == d

/-- The value of the last entry for the dataset in a
`(datasetID, valueBytes)` list. -/
def lastVal (gs : List (Nat × Val)) (d : Nat) : Option Val :=
  ((gs.filter fun p => p.1 == d).getLast?).map Prod.snd

/-- The value of the entity's locator entry with the highest version ordinal
for the dataset (the last entry of the ascending prefix scan). -/
def lastLocVal (snap : Snapshot) (e d : Nat) : Option Val :=
  (((locatorScan snap e).filter fun p => p.1.dataset == d).getLast?).map Prod.snd

/-- The value of the final Change Log entry for the `(dataset, entity)`
pair. -/
def lastChgVal (snap : Snapshot) (d e : Nat) : Option Val :=
  ((changesScan snap d e).getLast?).map Prod.snd

/-- The `(key, value)` pair a committed dataset writes into the result map:
the diagnostic placeholder under the stringified id when its name does not
resolve, else the `{latest, changes}` entry under the name. -/
def writeKV (snap : Snapshot) (side : SideState) (e d : Nat) (v : Val) : String × ResVal :=
  match LookupDatasetName side d with
  | none => (toString d, ResVal.diag)
  | some n =>
    (n, ResVal.entry (decodeD v) ((changesScan snap d e).map fun q => decodeD q.2))

/-- Error-free restatement of `buildResult` (coincides with it whenever
`buildResult` returns `ok`, see `buildResult_ok_eq`). -/
def buildPure (snap : Snapshot) (side : SideState) (e : Nat) :
    List (Nat × Val) → List (String × ResVal) → List (String × ResVal)
  | [], acc => acc
  | (d, v) :: rest, acc =>
    buildPure snap side e rest
      (assocSet (writeKV snap side e d v).1 (writeKV snap side e d v).2 acc)

/-- The value written last (i.e. by the latest accumulator entry) under a
given result-map key. -/
def lastWrite (snap : Snapshot) (side : SideState) (e : Nat) :
    List (Nat × Val) → String → Option ResVal
  | [], _ => none
  | (d, v) :: rest, k =>
    match lastWrite snap side e rest k with
    | some w => some w
    | none =>
      if (writeKV snap side e d v).1 = k then some (writeKV snap side e d v).2 else none

/-- Key uniqueness of an accumulator map. -/
def keysDistinct (m : List (Nat × Val)) : Prop :=
  (m.map Prod.fst).Nodup

-- Shared concrete fixtures used by witnesses and counterexamples.

/-- Concrete fixture: identity compaction. -/
def lkW : Lookup := ⟨fun s => .ok s⟩

/-- Concrete fixture snapshot: entity `ex:3` (internal id 1) with two versions
in dataset 5 and one version in dataset 7; change log consistent with the
locator index. -/
def snapW : Snapshot :=
  { entityIds := [("ex:3", 1)]
    locator := [(⟨1, 5, 0⟩, .doc 10), (⟨1, 5, 1⟩, .doc 11), (⟨1, 7, 0⟩, .doc 20)]
    changes := [(⟨5, 1, 0⟩, .doc 10), (⟨5, 1, 1⟩, .doc 11), (⟨7, 1, 0⟩, .doc 20)] }

/-- Concrete fixture registry: dataset 5 is `people`, dataset 7 is
`contacts`, nothing deleted. -/
def sideW : SideState :=
  { datasetIds := [("people", 5), ("contacts", 7)]
    deletedIds := []
    datasetNames := [(5, "people"), (7, "contacts")] }

/-- Concrete fixture: a compaction function that rejects every identifier. -/
def lkBad : Lookup := ⟨fun _ => .error .invalidIdentifier⟩

/-- Concrete fixture registry: same as `sideW` but with dataset 5 flagged
deleted (a registry write that can land after a transaction opens). -/
def sideDel : SideState :=
  { datasetIds := [("people", 5), ("contacts", 7)]
    deletedIds := [5]
    datasetNames := [(5, "people"), (7, "contacts")] }

/-- Concrete fixture registry: structurally different from `sideW` (shadowed
duplicate rows) but extensionally equal as a registry. -/
def sideW2 : SideState :=
  { datasetIds := [("people", 5), ("contacts", 7), ("people", 99)]
    deletedIds := []
    datasetNames := [(5, "people"), (7, "contacts"), (5, "shadowed")] }

/-- Concrete fixture snapshot: an entity with an assigned internal id but no
locator entries at all. -/
def snap10 : Snapshot :=
  { entityIds := [("lonely", 2)], locator := [], changes := [] }

/-- Concrete fixture snapshot: the entity appears in dataset 0 (the loop's
sentinel id) and in dataset 5. -/
def snap9 : Snapshot :=
  { entityIds := [("ex:3", 1)]
    locator := [(⟨1, 0, 0⟩, .doc 5), (⟨1, 5, 0⟩, .doc 6)]
    changes := [(⟨0, 1, 0⟩, .doc 5), (⟨5, 1, 0⟩, .doc 6)] }

/-- Concrete fixture registry for `snap9`: dataset 0 has a name, is not
deleted, and is in every scope. -/
def side9 : SideState :=
  { datasetIds := [("zero", 0), ("people", 5)]
    deletedIds := []
    datasetNames := [(0, "zero"), (5, "people")] }

/-- Concrete fixture snapshot: the stored latest document and the change log
entry of dataset 5 fail to decode. -/
def snapC : Snapshot :=
  { entityIds := [("ex:3", 1)]
    locator := [(⟨1, 5, 0⟩, .corrupt)]
    changes := [(⟨5, 1, 0⟩, .corrupt)] }

/-- Concrete fixture snapshot: the entity appears in dataset 5 (with a name)
and dataset 9 (without a name). -/
def snap6 : Snapshot :=
  { entityIds := [("ex:3", 1)]
    locator := [(⟨1, 5, 0⟩, .doc 1), (⟨1, 9, 0⟩, .doc 2)]
    changes := [(⟨5, 1, 0⟩, .doc 1), (⟨9, 1, 0⟩, .doc 2)] }

/-- Concrete fixture registry for `snap6`: dataset 9 has no display name. -/
def side6 : SideState :=
  { datasetIds := [("people", 5)]
    deletedIds := []
    datasetNames := [(5, "people")] }

example :
    Details lkW snapW sideW "ex:3" [] =
      .ok [("people", .entry 11 [10, 11]), ("contacts", .entry 20 [20])] := by
  decide

example :
    Details lkW snapW sideW "ex:3" ["contacts"] =
      .ok [("contacts", .entry 20 [20])] := by
  decide

example : Details lkW snapW sideW "ex:3" ["unknown-name"] =
    .ok [("people", .entry 11 [10, 11]), ("contacts", .entry 20 [20])] := by
  decide

example : snapW.WF := by decide

-- Association list lemmas.

theorem assocGet_assocSet_same {α β : Type} [DecidableEq α] (k : α) (v : β)
    (m : List (α × β)) : assocGet k (assocSet k v m) = some v := by
  induction m with
  | nil => simp [assocSet, assocGet]
  | cons p rest ih =>
    obtain ⟨k', v'⟩ := p
    by_cases h : k' = k
    · simp [assocSet, assocGet, h]
    · simp [assocSet, assocGet, h, ih]

theorem assocGet_assocSet_ne {α β : Type} [DecidableEq α] {k k' : α} (h : k' ≠ k)
    (v : β) (m : List (α × β)) : assocGet k' (assocSet k v m) = assocGet k' m := by
  have hk : k ≠ k' := Ne.symm h
  induction m with
  | nil => simp [assocSet, assocGet, hk]
  | cons p rest ih =>
    obtain ⟨a, b⟩ := p
    by_cases ha : a = k
    · subst ha
      simp [assocSet, assocGet, hk]
    · by_cases ha' : a = k'
      · simp [assocSet, assocGet, ha, ha', h]
      · simp [assocSet, assocGet, ha, ha', ih]

theorem mem_of_assocGet_eq_some {α β : Type} [DecidableEq α] {k : α} {v : β}
    {m : List (α × β)} (h : assocGet k m = some v) : (k, v) ∈ m := by
  induction m with
  | nil => simp [assocGet] at h
  | cons p rest ih =>
    obtain ⟨a, b⟩ := p
    by_cases ha : a = k
    · subst ha
      simp [assocGet] at h
      simp [h]
    · simp [assocGet, ha] at h
      exact List.mem_cons_of_mem _ (ih h)

theorem assocGet_isSome_of_mem {α β : Type} [DecidableEq α] {k : α} {v : β}
    {m : List (α × β)} (h : (k, v) ∈ m) : (assocGet k m).isSome := by
  induction m with
  | nil => simp at h
  | cons p rest ih =>
    obtain ⟨a, b⟩ := p
    by_cases ha : a = k
    · simp [assocGet, ha]
    · rcases List.mem_cons.mp h with h' | h'
      · cases h'
        simp at ha
      · simp [assocGet, ha]
        exact ih h'

theorem mem_keys_assocSet {α β : Type} [DecidableEq α] {a k : α} (v : β)
    (m : List (α × β)) :
    a ∈ (assocSet k v m).map Prod.fst ↔ a = k ∨ a ∈ m.map Prod.fst := by
  induction m with
  | nil => simp [assocSet]
  | cons p rest ih =>
    obtain ⟨k', v'⟩ := p
    by_cases h : k' = k
    · subst h
      simp [assocSet]
    · simp [assocSet, h, ih]
      tauto

theorem nodupKeys_assocSet {α β : Type} [DecidableEq α] {k : α} {v : β}
    {m : List (α × β)} (h : (m.map Prod.fst).Nodup) :
    ((assocSet k v m).map Prod.fst).Nodup := by
  induction m with
  | nil => simp [assocSet]
  | cons p rest ih =>
    obtain ⟨k', v'⟩ := p
    simp only [List.map_cons, List.nodup_cons] at h
    obtain ⟨hnotin, hrest⟩ := h
    by_cases hk : k' = k
    · subst hk
      have hred : assocSet k' v ((k', v') :: rest) = (k', v) :: rest := by
        simp [assocSet]
      rw [hred, List.map_cons, List.nodup_cons]
      exact ⟨hnotin, hrest⟩
    · simp only [assocSet, if_neg hk, List.map_cons, List.nodup_cons]
      refine ⟨?_, ih hrest⟩
      intro hmem
      rcases (mem_keys_assocSet v rest).mp hmem with h1 | h2
      · exact hk h1
      · exact hnotin h2


-- Relating the locator loop to its filtered-projection restatement.

theorem skip_eq_not_keep (side : SideState) (scope : List Nat) (d : Nat) :
    (IsDatasetDeleted side d || !includedIn scope d) = !keepEntry side scope d := by
  unfold keepEntry
  cases IsDatasetDeleted side d <;> cases includedIn scope d <;> rfl

theorem locatorLoop_eq_commitLoop (side : SideState) (scope : List Nat)
    (entries : List (LocatorKey × Val)) (prev : Nat) (prevVal : Val)
    (acc : List (Nat × Val)) :
    locatorLoop side scope entries prev prevVal acc =
      commitLoop (keptProj side scope entries) prev prevVal acc := by
  induction entries generalizing prev prevVal acc with
  | nil => rfl
  | cons q rest ih =>
    obtain ⟨k, v⟩ := q
    by_cases hk : keepEntry side scope k.dataset = true
    · rw [locatorLoop, keptProj]
      rw [List.filter_cons_of_pos (by simpa using hk)]
      rw [skip_eq_not_keep, hk]
      simp only [Bool.not_true, Bool.false_eq_true, if_false]
      rw [List.map_cons, commitLoop]
      exact ih _ _ _
    · rw [locatorLoop, keptProj]
      rw [List.filter_cons_of_neg (by simpa using hk)]
      rw [skip_eq_not_keep]
      simp only [Bool.not_eq_true] at hk
      rw [hk]
      simp only [Bool.not_false, if_true]
      exact ih _ _ _

-- Properties of `hasKey`, `lastVal` and the commit loop.

theorem getLast?_cons_of_ne_nil {α : Type} (a : α) {l : List α} (h : l ≠ []) :
    (a :: l).getLast? = l.getLast? := by
  cases l with
  | nil => exact absurd rfl h
  | cons b t => exact List.getLast?_cons_cons

theorem hasKey_iff (gs : List (Nat × Val)) (d : Nat) :
    hasKey gs d = true ↔ ∃ p ∈ gs, p.1 = d := by
  simp [hasKey, List.any_eq_true]

theorem filter_eq_nil_of_not_hasKey {gs : List (Nat × Val)} {d : Nat}
    (h : hasKey gs d = false) : gs.filter (fun p => p.1 == d) = [] := by
  rw [List.filter_eq_nil_iff]
  intro a ha
  simp only [hasKey, List.any_eq_false] at h
  exact h a ha

theorem lastVal_cons_of_hasKey {c : Nat} {w : Val} {rest : List (Nat × Val)} {d : Nat}
    (h : hasKey rest d = true) : lastVal ((c, w) :: rest) d = lastVal rest d := by
  unfold lastVal
  by_cases hc : c = d
  · rw [List.filter_cons_of_pos (by simp [hc])]
    rw [getLast?_cons_of_ne_nil]
    intro hnil
    rw [hasKey_iff] at h
    obtain ⟨p, hp, hpd⟩ := h
    have : p ∈ rest.filter (fun p => p.1 == d) := by
      rw [List.mem_filter]
      exact ⟨hp, by simp [hpd]⟩
    rw [hnil] at this
    simp at this
  · rw [List.filter_cons_of_neg (by simp [hc])]

theorem lastVal_cons_self_of_not_hasKey {c : Nat} {w : Val} {rest : List (Nat × Val)}
    (h : hasKey rest c = false) : lastVal ((c, w) :: rest) c = some w := by
  unfold lastVal
  rw [List.filter_cons_of_pos (by simp)]
  rw [filter_eq_nil_of_not_hasKey h]
  rfl

theorem lastVal_cons_of_ne {c : Nat} {w : Val} {rest : List (Nat × Val)} {d : Nat}
    (h : ¬c = d) : lastVal ((c, w) :: rest) d = lastVal rest d := by
  unfold lastVal
  rw [List.filter_cons_of_neg (by simp [h])]

theorem lastVal_eq_none_of_not_hasKey {gs : List (Nat × Val)} {d : Nat}
    (h : hasKey gs d = false) : lastVal gs d = none := by
  unfold lastVal
  rw [filter_eq_nil_of_not_hasKey h]
  rfl

/-- The single-pass aggregation invariant: after running the commit loop, the
accumulator holds, for every nonzero dataset id, the value of the last
surviving entry for that dataset, falling back to the pending record and then
to the initial accumulator. -/
theorem commitLoop_get (gs : List (Nat × Val)) (p : Nat) (pv : Val)
    (m : List (Nat × Val)) (d : Nat) (hd : d ≠ 0) :
    assocGet d (commitLoop gs p pv m) =
      if hasKey gs d = true then lastVal gs d
      else if d = p then some pv
      else assocGet d m := by
  induction gs generalizing p pv m with
  | nil =>
    simp only [commitLoop]
    have hknil : hasKey ([] : List (Nat × Val)) d = false := rfl
    rw [hknil]
    simp only [Bool.false_eq_true, if_false]
    by_cases hdp : d = p
    · subst hdp
      rw [if_pos hd, if_pos rfl]
      exact assocGet_assocSet_same d pv m
    · by_cases hp : p ≠ 0
      · rw [if_pos hp, if_neg hdp]
        exact assocGet_assocSet_ne hdp pv m
      · rw [if_neg hp, if_neg hdp]
  | cons g rest ih =>
    obtain ⟨c, w⟩ := g
    simp only [commitLoop]
    rw [ih]
    by_cases hr : hasKey rest d = true
    · have hck : hasKey ((c, w) :: rest) d = true := by
        rw [hasKey_iff] at hr ⊢
        obtain ⟨q, hq, hqd⟩ := hr
        exact ⟨q, List.mem_cons_of_mem _ hq, hqd⟩
      rw [if_pos hr, if_pos hck, lastVal_cons_of_hasKey hr]
    · have hrf : hasKey rest d = false := by
        cases hhh : hasKey rest d
        · rfl
        · exact absurd hhh hr
      rw [if_neg hr]
      by_cases hcd : c = d
      · have hck : hasKey ((c, w) :: rest) d = true := by
          rw [hasKey_iff]
          exact ⟨(c, w), List.mem_cons_self _ _, hcd⟩
        rw [if_pos hck, if_pos hcd.symm]
        subst hcd
        rw [lastVal_cons_self_of_not_hasKey hrf]
      · have hck : hasKey ((c, w) :: rest) d = false := by
          cases hhh : hasKey ((c, w) :: rest) d
          · rfl
          · rw [hasKey_iff] at hhh
            obtain ⟨q, hq, hqd⟩ := hhh
            rcases List.mem_cons.mp hq with h1 | h2
            · rw [h1] at hqd
              exact absurd hqd hcd
            · exact absurd ((hasKey_iff rest d).mpr ⟨q, h2, hqd⟩) hr
        rw [hck]
        have hne : ¬(d = c) := fun h => hcd h.symm
        rw [if_neg hne]
        simp only [Bool.false_eq_true, if_false]
        by_cases hdp : d = p
        · rw [if_pos hdp]
          have hp0 : p ≠ 0 := hdp ▸ hd
          have hcp : c ≠ p := fun hh => hcd (hh.trans hdp.symm)
          rw [if_pos (And.intro hp0 hcp), hdp]
          exact assocGet_assocSet_same p pv m
        · rw [if_neg hdp]
          by_cases hcond : p ≠ 0 ∧ c ≠ p
          · rw [if_pos hcond]
            exact assocGet_assocSet_ne hdp pv m
          · rw [if_neg hcond]

/-- Dataset id `0` is the loop's "no previous dataset" sentinel: the commit
loop never writes key `0`. -/
theorem commitLoop_get_zero (gs : List (Nat × Val)) (p : Nat) (pv : Val)
    (m : List (Nat × Val)) :
    assocGet 0 (commitLoop gs p pv m) = assocGet 0 m := by
  induction gs generalizing p pv m with
  | nil =>
    simp only [commitLoop]
    by_cases hp : p ≠ 0
    · rw [if_pos hp]
      exact assocGet_assocSet_ne (Ne.symm hp) pv m
    · rw [if_neg hp]
  | cons g rest ih =>
    obtain ⟨c, w⟩ := g
    simp only [commitLoop]
    rw [ih]
    by_cases hcond : p ≠ 0 ∧ c ≠ p
    · rw [if_pos hcond]
      exact assocGet_assocSet_ne (Ne.symm hcond.1) pv m
    · rw [if_neg hcond]

/-- The accumulator after the locator scan holds exactly the last surviving
locator value per nonzero dataset id. -/
theorem detailsCommitted_get {snap : Snapshot} {side : SideState} {e : Nat}
    {scope : List Nat} {d : Nat} (hd : d ≠ 0) :
    assocGet d (detailsCommitted snap side e scope) =
      lastVal (keptProj side scope (locatorScan snap e)) d := by
  unfold detailsCommitted
  rw [locatorLoop_eq_commitLoop, commitLoop_get _ _ _ _ _ hd]
  by_cases h : hasKey (keptProj side scope (locatorScan snap e)) d = true
  · rw [if_pos h]
  · rw [if_neg h]
    have hf : hasKey (keptProj side scope (locatorScan snap e)) d = false := by
      cases hhh : hasKey (keptProj side scope (locatorScan snap e)) d
      · rfl
      · exact absurd hhh h
    rw [lastVal_eq_none_of_not_hasKey hf, if_neg hd]
    rfl

theorem detailsCommitted_get_zero (snap : Snapshot) (side : SideState) (e : Nat)
    (scope : List Nat) : assocGet 0 (detailsCommitted snap side e scope) = none := by
  unfold detailsCommitted
  rw [locatorLoop_eq_commitLoop, commitLoop_get_zero]
  rfl

theorem commitLoop_keysDistinct (gs : List (Nat × Val)) (p : Nat) (pv : Val)
    (m : List (Nat × Val)) (h : keysDistinct m) : keysDistinct (commitLoop gs p pv m) := by
  induction gs generalizing p pv m with
  | nil =>
    simp only [commitLoop]
    by_cases hp : p ≠ 0
    · rw [if_pos hp]
      exact nodupKeys_assocSet h
    · rw [if_neg hp]
      exact h
  | cons g rest ih =>
    obtain ⟨c, w⟩ := g
    simp only [commitLoop]
    by_cases hcond : p ≠ 0 ∧ c ≠ p
    · rw [if_pos hcond]
      exact ih _ _ _ (nodupKeys_assocSet h)
    · rw [if_neg hcond]
      exact ih _ _ _ h

theorem detailsCommitted_keysDistinct (snap : Snapshot) (side : SideState) (e : Nat)
    (scope : List Nat) : keysDistinct (detailsCommitted snap side e scope) := by
  unfold detailsCommitted
  rw [locatorLoop_eq_commitLoop]
  exact commitLoop_keysDistinct _ _ _ _ (by simp [keysDistinct])

-- Except monad reduction lemmas.

theorem except_bind_ok {ε α β : Type} (a : α) (f : α → Except ε β) :
    (Except.ok a >>= f) = f a := rfl

theorem except_bind_error {ε α β : Type} (e : ε) (f : α → Except ε β) :
    ((Except.error e : Except ε α) >>= f) = Except.error e := rfl

-- Characterizing the keys surviving the scan.

theorem appears_iff (snap : Snapshot) (e d : Nat) :
    appears snap e d = true ↔ ∃ q ∈ locatorScan snap e, q.1.dataset = d := by
  simp [appears, List.any_eq_true]

theorem hasKey_keptProj_iff (side : SideState) (scope : List Nat)
    (l : List (LocatorKey × Val)) (d : Nat) :
    hasKey (keptProj side scope l) d = true ↔
      keepEntry side scope d = true ∧ ∃ q ∈ l, q.1.dataset = d := by
  rw [hasKey_iff]
  constructor
  · rintro ⟨p, hp, hpd⟩
    unfold keptProj at hp
    simp only [List.mem_map, List.mem_filter] at hp
    obtain ⟨q, ⟨hql, hqk⟩, hqp⟩ := hp
    have hqd : q.1.dataset = d := by rw [← hpd, ← hqp]
    refine ⟨by rw [← hqd]; exact hqk, q, hql, hqd⟩
  · rintro ⟨hk, q, hql, hqd⟩
    refine ⟨(q.1.dataset, q.2), ?_, hqd⟩
    unfold keptProj
    simp only [List.mem_map, List.mem_filter]
    exact ⟨q, ⟨hql, by rw [hqd]; exact hk⟩, rfl⟩

theorem lastVal_isSome_iff (gs : List (Nat × Val)) (d : Nat) :
    (lastVal gs d).isSome = true ↔ hasKey gs d = true := by
  constructor
  · intro h
    by_contra hk
    have hkf : hasKey gs d = false := by
      cases hh : hasKey gs d
      · rfl
      · exact absurd hh hk
    rw [lastVal_eq_none_of_not_hasKey hkf] at h
    simp at h
  · intro h
    rw [hasKey_iff] at h
    obtain ⟨p, hp, hpd⟩ := h
    have hne : gs.filter (fun p => p.1 == d) ≠ [] := by
      intro hnil
      have hmem : p ∈ gs.filter (fun p => p.1 == d) :=
        List.mem_filter.mpr ⟨hp, by simp [hpd]⟩
      rw [hnil] at hmem
      simp at hmem
    have hsome : ((gs.filter fun p => p.1 == d).getLast?).isSome :=
      List.getLast?_isSome.mpr hne
    unfold lastVal
    cases hgl : (gs.filter fun p => p.1 == d).getLast? with
    | none =>
      rw [hgl] at hsome
      simp at hsome
    | some q => rfl

theorem getLast?_map {α β : Type} (f : α → β) (l : List α) :
    (l.map f).getLast? = l.getLast?.map f := by
  induction l with
  | nil => rfl
  | cons a t ih =>
    cases t with
    | nil => rfl
    | cons b t' =>
      rw [List.map_cons, List.map_cons, List.getLast?_cons_cons]
      rw [List.getLast?_cons_cons]
      rw [← List.map_cons]
      exact ih

theorem keptProj_filter_at_key (side : SideState) (scope : List Nat)
    (l : List (LocatorKey × Val)) {d : Nat} (hk : keepEntry side scope d = true) :
    (keptProj side scope l).filter (fun p => p.1 == d) =
      (l.filter fun q => q.1.dataset == d).map fun q => (q.1.dataset, q.2) := by
  induction l with
  | nil => rfl
  | cons q rest ih =>
    unfold keptProj at ih ⊢
    by_cases hqd : q.1.dataset = d
    · have hkeep : keepEntry side scope q.1.dataset = true := by rw [hqd]; exact hk
      rw [List.filter_cons_of_pos (by simpa using hkeep), List.map_cons]
      rw [List.filter_cons_of_pos (by simp [hqd])]
      rw [List.filter_cons_of_pos (by simp [hqd]), List.map_cons]
      rw [ih]
    · by_cases hkeep : keepEntry side scope q.1.dataset = true
      · rw [List.filter_cons_of_pos (by simpa using hkeep), List.map_cons]
        rw [List.filter_cons_of_neg (by simp [hqd])]
        rw [List.filter_cons_of_neg (by simp [hqd])]
        exact ih
      · rw [List.filter_cons_of_neg (by simpa using hkeep)]
        rw [List.filter_cons_of_neg (by simp [hqd])]
        exact ih

theorem lastVal_keptProj_eq_lastLocVal {snap : Snapshot} {side : SideState} {e : Nat}
    {scope : List Nat} {d : Nat} (hk : keepEntry side scope d = true) :
    lastVal (keptProj side scope (locatorScan snap e)) d = lastLocVal snap e d := by
  unfold lastVal lastLocVal
  rw [keptProj_filter_at_key side scope _ hk, getLast?_map]
  cases ((locatorScan snap e).filter fun q => q.1.dataset == d).getLast? with
  | none => rfl
  | some q => rfl

-- Properties of `loadChangesLoop`.

theorem loadChangesLoop_ok_eq {l : List (ChangeKey × Val)} {out : List Doc}
    (h : loadChangesLoop l = .ok out) : out = l.map fun q => decodeD q.2 := by
  induction l generalizing out with
  | nil =>
    rw [loadChangesLoop] at h
    rw [List.map_nil]
    exact (Except.ok.inj h).symm
  | cons q rest ih =>
    rw [loadChangesLoop] at h
    cases hq : q.2 with
    | corrupt =>
      rw [hq] at h
      rw [show unmarshal Val.corrupt = .error Err.corrupt from rfl, except_bind_error] at h
      exact absurd h (by simp)
    | doc dd =>
      rw [hq] at h
      rw [show unmarshal (Val.doc dd) = .ok dd from rfl, except_bind_ok] at h
      cases hr : loadChangesLoop rest with
      | error err =>
        rw [hr, except_bind_error] at h
        exact absurd h (by simp)
      | ok restDocs =>
        rw [hr, except_bind_ok] at h
        have hout : dd :: restDocs = out := Except.ok.inj h
        rw [← hout, List.map_cons, hq]
        rw [show decodeD (Val.doc dd) = dd from rfl]
        rw [← ih hr]

theorem loadChangesLoop_clean_ok {l : List (ChangeKey × Val)}
    (h : ∀ q ∈ l, q.2 ≠ Val.corrupt) :
    loadChangesLoop l = .ok (l.map fun q => decodeD q.2) := by
  induction l with
  | nil => rfl
  | cons q rest ih =>
    have hq : q.2 ≠ .corrupt := h q (List.mem_cons_self _ _)
    cases hqv : q.2 with
    | corrupt => exact absurd hqv hq
    | doc dd =>
      rw [loadChangesLoop, hqv]
      rw [show unmarshal (Val.doc dd) = .ok dd from rfl, except_bind_ok]
      rw [ih fun p hp => h p (List.mem_cons_of_mem _ hp), except_bind_ok]
      rw [List.map_cons, hqv]
      rfl

theorem loadChangesLoop_corrupt {l : List (ChangeKey × Val)}
    (h : ∃ q ∈ l, q.2 = Val.corrupt) : loadChangesLoop l = .error Err.corrupt := by
  induction l with
  | nil =>
    obtain ⟨q, hq, _⟩ := h
    simp at hq
  | cons q rest ih =>
    by_cases hqc : q.2 = Val.corrupt
    · rw [loadChangesLoop, hqc]
      rfl
    · cases hqv : q.2 with
      | corrupt => exact absurd hqv hqc
      | doc dd =>
        obtain ⟨p, hp, hpc⟩ := h
        rcases List.mem_cons.mp hp with h1 | h2
        · rw [h1] at hpc
          exact absurd hpc hqc
        · rw [loadChangesLoop, hqv]
          rw [show unmarshal (Val.doc dd) = .ok dd from rfl, except_bind_ok]
          rw [ih ⟨p, h2, hpc⟩, except_bind_error]

-- Properties of `buildResult` and its pure restatement.

theorem buildResult_ok_eq {snap : Snapshot} {side : SideState} {e : Nat}
    {ps : List (Nat × Val)} {acc r : List (String × ResVal)}
    (h : buildResult snap side e ps acc = .ok r) :
    r = buildPure snap side e ps acc := by
  induction ps generalizing acc with
  | nil =>
    rw [buildResult] at h
    rw [buildPure]
    exact (Except.ok.inj h).symm
  | cons p rest ih =>
    obtain ⟨d, v⟩ := p
    rw [buildResult] at h
    rw [buildPure]
    cases hn : LookupDatasetName side d with
    | none =>
      rw [hn] at h
      have hw : writeKV snap side e d v = (toString d, ResVal.diag) := by
        rw [writeKV, hn]
      rw [hw]
      exact ih h
    | some n =>
      rw [hn] at h
      dsimp only at h
      cases hv : unmarshal v with
      | error err =>
        rw [hv, except_bind_error] at h
        exact absurd h (by simp)
      | ok dd =>
        rw [hv, except_bind_ok] at h
        cases hc : loadChanges snap e d with
        | error err =>
          rw [hc, except_bind_error] at h
          exact absurd h (by simp)
        | ok chs =>
          rw [hc, except_bind_ok] at h
          have h1 : decodeD v = dd := by
            cases v with
            | doc x => exact Except.ok.inj hv
            | corrupt => exact absurd hv (by simp [unmarshal])
          have h2 : chs = (changesScan snap d e).map fun q => decodeD q.2 :=
            loadChangesLoop_ok_eq hc
          have hw : writeKV snap side e d v = (n, ResVal.entry dd chs) := by
            rw [writeKV, hn, h1, ← h2]
          rw [hw]
          exact ih h

theorem buildResult_ok_clean {snap : Snapshot} {side : SideState} {e : Nat}
    {ps : List (Nat × Val)} {acc r : List (String × ResVal)}
    (h : buildResult snap side e ps acc = .ok r) :
    ∀ d v, (d, v) ∈ ps → (LookupDatasetName side d).isSome →
      (∃ dd, unmarshal v = .ok dd) ∧ (∃ chs, loadChanges snap e d = .ok chs) := by
  induction ps generalizing acc with
  | nil =>
    intro d v hm
    simp at hm
  | cons p rest ih =>
    obtain ⟨d0, v0⟩ := p
    intro d v hm hnm
    rw [buildResult] at h
    cases hn : LookupDatasetName side d0 with
    | none =>
      rw [hn] at h
      rcases List.mem_cons.mp hm with h1 | h2
      · injection h1 with hd hv
        subst hd
        rw [hn] at hnm
        simp at hnm
      · exact ih h d v h2 hnm
    | some n =>
      rw [hn] at h
      dsimp only at h
      cases hv0 : unmarshal v0 with
      | error err =>
        rw [hv0, except_bind_error] at h
        exact absurd h (by simp)
      | ok dd =>
        rw [hv0, except_bind_ok] at h
        cases hc : loadChanges snap e d0 with
        | error err =>
          rw [hc, except_bind_error] at h
          exact absurd h (by simp)
        | ok chs =>
          rw [hc, except_bind_ok] at h
          rcases List.mem_cons.mp hm with h1 | h2
          · injection h1 with hd hv
            subst hd
            subst hv
            exact ⟨⟨dd, hv0⟩, ⟨chs, hc⟩⟩
          · exact ih h d v h2 hnm

theorem buildResult_clean_ok {snap : Snapshot} {side : SideState} {e : Nat}
    {ps : List (Nat × Val)}
    (h : ∀ d v, (d, v) ∈ ps → (LookupDatasetName side d).isSome →
      v ≠ Val.corrupt ∧ ∀ q ∈ changesScan snap d e, q.2 ≠ Val.corrupt) :
    ∀ acc, buildResult snap side e ps acc = .ok (buildPure snap side e ps acc) := by
  induction ps with
  | nil =>
    intro acc
    rfl
  | cons p rest ih =>
    intro acc
    obtain ⟨d, v⟩ := p
    rw [buildResult, buildPure]
    cases hn : LookupDatasetName side d with
    | none =>
      dsimp only
      have hw : writeKV snap side e d v = (toString d, ResVal.diag) := by
        rw [writeKV, hn]
      rw [hw]
      exact ih (fun d' v' hm hs => h d' v' (List.mem_cons_of_mem _ hm) hs) _
    | some n =>
      dsimp only
      have hhead := h d v (List.mem_cons_self _ _) (by rw [hn]; rfl)
      cases hv : v with
      | corrupt => exact absurd hv hhead.1
      | doc dd =>
        rw [show unmarshal (Val.doc dd) = .ok dd from rfl, except_bind_ok]
        have hchg : loadChanges snap e d =
            .ok ((changesScan snap d e).map fun q => decodeD q.2) := by
          rw [loadChanges]
          exact loadChangesLoop_clean_ok hhead.2
        rw [hchg, except_bind_ok]
        have hw : writeKV snap side e d v =
            (n, ResVal.entry dd ((changesScan snap d e).map fun q => decodeD q.2)) := by
          rw [writeKV, hn, hv]
          rfl
        rw [← hv, hw]
        exact ih (fun d' v' hm hs => h d' v' (List.mem_cons_of_mem _ hm) hs) _

theorem assocGet_buildPure (snap : Snapshot) (side : SideState) (e : Nat)
    (ps : List (Nat × Val)) (acc : List (String × ResVal)) (k : String) :
    assocGet k (buildPure snap side e ps acc) =
      match lastWrite snap side e ps k with
      | some w => some w
      | none => assocGet k acc := by
  induction ps generalizing acc with
  | nil => rfl
  | cons p rest ih =>
    obtain ⟨d, v⟩ := p
    rw [buildPure, lastWrite, ih]
    cases hlw : lastWrite snap side e rest k with
    | some w => rfl
    | none =>
      by_cases hk : (writeKV snap side e d v).1 = k
      · rw [if_pos hk, ← hk, assocGet_assocSet_same]
      · rw [if_neg hk, assocGet_assocSet_ne (fun hh => hk hh.symm)]

theorem lastWrite_isSome_iff (snap : Snapshot) (side : SideState) (e : Nat)
    (ps : List (Nat × Val)) (k : String) :
    (lastWrite snap side e ps k).isSome = true ↔
      ∃ d v, (d, v) ∈ ps ∧ (writeKV snap side e d v).1 = k := by
  induction ps with
  | nil => simp [lastWrite]
  | cons p rest ih =>
    obtain ⟨d0, v0⟩ := p
    rw [lastWrite]
    cases hlw : lastWrite snap side e rest k with
    | some w =>
      constructor
      · intro _
        obtain ⟨d, v, hm, hk⟩ := ih.mp (by rw [hlw]; rfl)
        exact ⟨d, v, List.mem_cons_of_mem _ hm, hk⟩
      · intro _
        rfl
    | none =>
      by_cases hk : (writeKV snap side e d0 v0).1 = k
      · rw [if_pos hk]
        constructor
        · intro _
          exact ⟨d0, v0, List.mem_cons_self _ _, hk⟩
        · intro _
          rfl
      · rw [if_neg hk]
        constructor
        · intro h
          simp at h
        · rintro ⟨d, v, hm, hkk⟩
          rcases List.mem_cons.mp hm with h1 | h2
          · injection h1 with hd hv
            subst hd
            subst hv
            exact absurd hkk hk
          · have := ih.mpr ⟨d, v, h2, hkk⟩
            rw [hlw] at this
            simp at this

theorem lastWrite_eq_of_unique (snap : Snapshot) (side : SideState) (e : Nat)
    (k : String) (d : Nat) (v : Val) :
    ∀ ps : List (Nat × Val), keysDistinct ps → (d, v) ∈ ps →
      (writeKV snap side e d v).1 = k →
      (∀ d' v', (d', v') ∈ ps → (writeKV snap side e d' v').1 = k → d' = d) →
      lastWrite snap side e ps k = some (writeKV snap side e d v).2 := by
  intro ps
  induction ps with
  | nil =>
    intro _ hm
    simp at hm
  | cons p rest ih =>
    intro hnd hm hk huniq
    obtain ⟨d0, v0⟩ := p
    rw [lastWrite]
    rcases List.mem_cons.mp hm with h1 | h2
    · injection h1 with hd hv
      subst hd
      subst hv
      have hnone : lastWrite snap side e rest k = none := by
        cases hlw : lastWrite snap side e rest k with
        | none => rfl
        | some w =>
          obtain ⟨d', v', hm', hk'⟩ :=
            (lastWrite_isSome_iff snap side e rest k).mp (by rw [hlw]; rfl)
          have hd' : d' = d := huniq d' v' (List.mem_cons_of_mem _ hm') hk'
          subst hd'
          unfold keysDistinct at hnd
          simp only [List.map_cons, List.nodup_cons] at hnd
          exact absurd (List.mem_map_of_mem Prod.fst hm') hnd.1
      rw [hnone, if_pos hk]
    · have hnd' : keysDistinct rest := by
        unfold keysDistinct at hnd ⊢
        simp only [List.map_cons, List.nodup_cons] at hnd
        exact hnd.2
      rw [ih hnd' h2 hk fun d' v' hm' hk' => huniq d' v' (List.mem_cons_of_mem _ hm') hk']

-- Unfolding `Details` along its resolution steps.

theorem Details_curie_error {lk : Lookup} {snap : Snapshot} {side : SideState}
    {id : String} {names : List String} {err : Err}
    (h : lk.curieOf id = .error err) : Details lk snap side id names = .error err := by
  unfold Details
  rw [h, except_bind_error]

theorem Details_id_error {lk : Lookup} {snap : Snapshot} {side : SideState}
    {id : String} {names : List String} {c : String} {err : Err}
    (h1 : lk.curieOf id = .ok c) (h2 : InternalIDForCURIE snap c = .error err) :
    Details lk snap side id names = .error err := by
  unfold Details
  rw [h1, except_bind_ok, h2, except_bind_error]

theorem Details_eq_loadDetails {lk : Lookup} {snap : Snapshot} {side : SideState}
    {id : String} {names : List String} {c : String} {e : Nat}
    (h1 : lk.curieOf id = .ok c) (h2 : InternalIDForCURIE snap c = .ok e) :
    Details lk snap side id names =
      loadDetails snap side e (LookupDatasetIDs side names) := by
  unfold Details
  rw [h1, except_bind_ok, h2, except_bind_ok]

-- The result of a successful call, looked up at a key, is the last write to
-- that key during assembly.

theorem loadDetails_ok_lookup {snap : Snapshot} {side : SideState} {e : Nat}
    {scope : List Nat} {r : List (String × ResVal)}
    (h : loadDetails snap side e scope = .ok r) (k : String) :
    assocGet k r = lastWrite snap side e (detailsCommitted snap side e scope) k := by
  have hr : r = buildPure snap side e (detailsCommitted snap side e scope) [] := by
    unfold loadDetails at h
    exact buildResult_ok_eq h
  rw [hr, assocGet_buildPure]
  cases lastWrite snap side e (detailsCommitted snap side e scope) k with
  | some w => rfl
  | none => rfl

-- Key-presence characterization of the accumulator.

theorem detailsCommitted_isSome_iff {snap : Snapshot} {side : SideState} {e : Nat}
    {scope : List Nat} {d : Nat} :
    (assocGet d (detailsCommitted snap side e scope)).isSome = true ↔
      d ≠ 0 ∧ keepEntry side scope d = true ∧ appears snap e d = true := by
  by_cases hd : d = 0
  · subst hd
    rw [detailsCommitted_get_zero]
    simp
  · rw [detailsCommitted_get hd, lastVal_isSome_iff, hasKey_keptProj_iff, ← appears_iff]
    constructor
    · rintro ⟨hk, ha⟩
      exact ⟨hd, hk, ha⟩
    · rintro ⟨-, hk, ha⟩
      exact ⟨hk, ha⟩

theorem keepEntry_iff_of_ne_nil {side : SideState} {scope : List Nat} {d : Nat}
    (h : scope ≠ []) :
    keepEntry side scope d = true ↔ IsDatasetDeleted side d = false ∧ d ∈ scope := by
  unfold keepEntry includedIn
  have hie : scope.isEmpty = false := by
    cases scope with
    | nil => exact absurd rfl h
    | cons a t => rfl
  rw [hie]
  simp only [Bool.false_or, Bool.and_eq_true, Bool.not_eq_true', List.any_eq_true,
    beq_iff_eq]
  constructor
  · rintro ⟨hdel, x, hx, hxd⟩
    exact ⟨hdel, hxd ▸ hx⟩
  · rintro ⟨hdel, hmem⟩
    exact ⟨hdel, d, hmem, rfl⟩

theorem detailsCommitted_nil_of_all_skipped {snap : Snapshot} {side : SideState}
    {e : Nat} {scope : List Nat}
    (h : ∀ q ∈ locatorScan snap e, keepEntry side scope q.1.dataset = false) :
    detailsCommitted snap side e scope = [] := by
  unfold detailsCommitted
  rw [locatorLoop_eq_commitLoop]
  have hkp : keptProj side scope (locatorScan snap e) = [] := by
    unfold keptProj
    have hf : (locatorScan snap e).filter (fun q => keepEntry side scope q.1.dataset) = [] := by
      rw [List.filter_eq_nil_iff]
      intro q hq
      simp [h q hq]
    rw [hf]
    rfl
  rw [hkp]
  rfl

-- Ordering of the change-log scan under store well-formedness.

theorem changesScan_pairwise_ordinal {snap : Snapshot} (hwf : snap.WF) (d e : Nat) :
    (changesScan snap d e).Pairwise fun a b => a.1.ordinal < b.1.ordinal := by
  have h1 : (changesScan snap d e).Pairwise fun p q => chgLT p.1 q.1 := by
    unfold changesScan
    exact List.Pairwise.sublist (List.filter_sublist _) hwf.2
  have hmem : ∀ p ∈ changesScan snap d e, p.1.dataset = d ∧ p.1.entity = e := by
    intro p hp
    unfold changesScan at hp
    rw [List.mem_filter] at hp
    have h2 := hp.2
    simp only [Bool.and_eq_true, beq_iff_eq] at h2
    exact h2
  refine List.Pairwise.imp_of_mem ?_ h1
  intro a b ha hb hlt
  obtain ⟨had, hae⟩ := hmem a ha
  obtain ⟨hbd, hbe⟩ := hmem b hb
  unfold chgLT at hlt
  rcases hlt with h | ⟨hdeq, h⟩
  · rw [had, hbd] at h
    exact absurd h (lt_irrefl d)
  · rcases h with h | ⟨heeq, h⟩
    · rw [hae, hbe] at h
      exact absurd h (lt_irrefl e)
    · exact h

-- Side-state congruence: the call reads the live registry only through the
-- three registry views.

theorem locatorLoop_congr {side side' : SideState}
    (hdel : ∀ d, IsDatasetDeleted side d = IsDatasetDeleted side' d)
    (scope : List Nat) :
    ∀ (entries : List (LocatorKey × Val)) (prev : Nat) (prevVal : Val)
      (acc : List (Nat × Val)),
      locatorLoop side scope entries prev prevVal acc =
        locatorLoop side' scope entries prev prevVal acc := by
  intro entries
  induction entries with
  | nil =>
    intro prev prevVal acc
    rfl
  | cons q rest ih =>
    intro prev prevVal acc
    obtain ⟨k, v⟩ := q
    simp only [locatorLoop]
    rw [hdel k.dataset]
    by_cases hc : (IsDatasetDeleted side' k.dataset || !includedIn scope k.dataset) = true
    · rw [if_pos hc, if_pos hc]
      exact ih _ _ _
    · rw [if_neg hc, if_neg hc]
      exact ih _ _ _

theorem buildResult_congr {snap : Snapshot} {e : Nat} {side side' : SideState}
    (hname : ∀ d, LookupDatasetName side d = LookupDatasetName side' d) :
    ∀ (ps : List (Nat × Val)) (acc : List (String × ResVal)),
      buildResult snap side e ps acc = buildResult snap side' e ps acc := by
  intro ps
  induction ps with
  | nil =>
    intro acc
    rfl
  | cons p rest ih =>
    intro acc
    obtain ⟨d, v⟩ := p
    rw [buildResult, buildResult, ← hname d]
    cases hn : LookupDatasetName side d with
    | none => exact ih _
    | some n =>
      dsimp only
      cases hv : unmarshal v with
      | error err => rw [except_bind_error, except_bind_error]
      | ok dd =>
        rw [except_bind_ok, except_bind_ok]
        cases hc : loadChanges snap e d with
        | error err => rw [except_bind_error, except_bind_error]
        | ok chs =>
          rw [except_bind_ok, except_bind_ok]
          exact ih _

theorem Details_side_congr (lk : Lookup) (snap : Snapshot) (id : String)
    (names : List String) {side side' : SideState}
    (hdel : ∀ d, IsDatasetDeleted side d = IsDatasetDeleted side' d)
    (hname : ∀ d, LookupDatasetName side d = LookupDatasetName side' d)
    (hids : ∀ ns, LookupDatasetIDs side ns = LookupDatasetIDs side' ns) :
    Details lk snap side id names = Details lk snap side' id names := by
  unfold Details
  cases hc : lk.curieOf id with
  | error err => rw [except_bind_error, except_bind_error]
  | ok curie =>
    rw [except_bind_ok, except_bind_ok]
    cases hi : InternalIDForCURIE snap curie with
    | error err => rw [except_bind_error, except_bind_error]
    | ok e =>
      rw [except_bind_ok, except_bind_ok]
      show loadDetails snap side e (LookupDatasetIDs side names) =
        loadDetails snap side' e (LookupDatasetIDs side' names)
      rw [← hids names]
      unfold loadDetails detailsCommitted
      rw [locatorLoop_congr hdel (LookupDatasetIDs side names) (locatorScan snap e) 0
        Val.corrupt []]
      exact buildResult_congr hname _ _

-- Claim theorems.

/-- Claim C7: for every entity identifier whose curie has never been assigned
an internal id, `Details` fails with the `NotFound`-class error, and every
identifier-resolution failure (`InvalidIdentifier` from compaction, `NotFound`
from internal-id resolution) aborts the call before any index scan runs: the
error is produced whatever the contents of the locator and change-log
indexes. -/
theorem claim7_resolution_failures (lk : Lookup) (id : String) (names : List String) :
    (∀ (snap : Snapshot) (side : SideState) (err : Err),
      lk.curieOf id = .error err → Details lk snap side id names = .error err) ∧
    (∀ (snap : Snapshot) (side : SideState) (c : String),
      lk.curieOf id = .ok c → assocGet c snap.entityIds = none →
      ∀ (loc : List (LocatorKey × Val)) (chs : List (ChangeKey × Val)),
        Details lk { entityIds := snap.entityIds, locator := loc, changes := chs }
          side id names = .error Err.notFound) := by
  constructor
  · intro snap side err h
    exact Details_curie_error h
  · intro snap side c h1 h2 loc chs
    apply Details_id_error h1
    unfold InternalIDForCURIE
    dsimp only
    rw [h2]

/-- Claim C7 witness: the compaction failure and the unknown-curie failure at
concrete inputs. -/
theorem claim7_witness :
    Details lkBad snapW sideW "anything" [] = .error Err.invalidIdentifier ∧
    Details lkW snapW sideW "never-assigned" [] = .error Err.notFound := by
  constructor
  · exact (claim7_resolution_failures lkBad "anything" []).1 snapW sideW
      Err.invalidIdentifier (by decide)
  · exact (claim7_resolution_failures lkW "never-assigned" []).2 snapW sideW
      "never-assigned" (by decide) (by decide) snapW.locator snapW.changes

/-- Claim C8: `Details` mutates no persistent state on any execution path: in
the state-passing form the store after the call equals the store before it,
on the success path and on every error path (the read transaction is
discarded, never committed), and the returned value agrees with the pure
`Details`. -/
theorem claim8_no_mutation (lk : Lookup) (s : Store) (id : String)
    (names : List String) :
    (DetailsS lk s id names).2 = s ∧
    (DetailsS lk s id names).1 = Details lk s.snap s.side id names := by
  unfold DetailsS newTransaction txnDiscard
  dsimp only
  cases hc : lk.curieOf id with
  | error err => exact ⟨rfl, (Details_curie_error hc).symm⟩
  | ok curie =>
    dsimp only
    cases hi : InternalIDForCURIE s.snap curie with
    | error err => exact ⟨rfl, (Details_id_error hc hi).symm⟩
    | ok internalID =>
      dsimp only
      cases hl : loadDetails s.snap s.side internalID (LookupDatasetIDs s.side names) with
      | error err =>
        refine ⟨rfl, ?_⟩
        rw [Details_eq_loadDetails hc hi, hl]
      | ok r =>
        refine ⟨rfl, ?_⟩
        rw [Details_eq_loadDetails hc hi, hl]

/-- Claim C9: internal dataset id 0 is the locator loop's "no previous
dataset" sentinel, so locator entries with dataset id 0 are never committed
to the accumulator, and a dataset with internal id 0 is absent from the
result map even when it is not deleted, is in scope, and its name resolves
(provided no other dataset's result key collides with that name). -/
theorem claim9_sentinel_zero (snap : Snapshot) (side : SideState) (e : Nat)
    (scope : List Nat) (r : List (String × ResVal)) (n : String) :
    assocGet 0 (detailsCommitted snap side e scope) = none ∧
    (loadDetails snap side e scope = .ok r →
      LookupDatasetName side 0 = some n →
      IsDatasetDeleted side 0 = false →
      includedIn scope 0 = true →
      (∀ p ∈ detailsCommitted snap side e scope, (writeKV snap side e p.1 p.2).1 ≠ n) →
      assocGet n r = none) := by
  constructor
  · exact detailsCommitted_get_zero snap side e scope
  · intro hok hname hdel hscope hno
    rw [loadDetails_ok_lookup hok]
    cases hlw : lastWrite snap side e (detailsCommitted snap side e scope) n with
    | none => rfl
    | some w =>
      exfalso
      obtain ⟨d', v', hm, hk⟩ :=
        (lastWrite_isSome_iff snap side e (detailsCommitted snap side e scope) n).mp
          (by rw [hlw]; rfl)
      exact hno (d', v') hm hk

/-- Claim C9 witness: with the entity of `snap9` present in dataset 0 (named
`zero`, not deleted, empty scope), the accumulator lacks key 0 and the result
lacks the key `zero`. -/
theorem claim9_witness :
    assocGet 0 (detailsCommitted snap9 side9 1 []) = none ∧
    assocGet "zero" [("people", ResVal.entry 6 [6])] = none := by
  have h := claim9_sentinel_zero snap9 side9 1 [] [("people", ResVal.entry 6 [6])] "zero"
  exact ⟨h.1, h.2 (by decide) (by decide) (by decide) (by decide) (by decide)⟩

/-- Claim C10: when the entity identifier resolves but no locator entry
survives the deletion/scope filtering (including an entity with no locator
entries at all), `Details` returns the empty map, not an error. -/
theorem claim10_empty_result (lk : Lookup) (snap : Snapshot) (side : SideState)
    (id : String) (names : List String) (c : String) (e : Nat)
    (h1 : lk.curieOf id = .ok c)
    (h2 : InternalIDForCURIE snap c = .ok e)
    (h3 : ∀ q ∈ locatorScan snap e,
      keepEntry side (LookupDatasetIDs side names) q.1.dataset = false) :
    Details lk snap side id names = .ok [] := by
  rw [Details_eq_loadDetails h1 h2]
  unfold loadDetails
  rw [detailsCommitted_nil_of_all_skipped h3]
  rfl

/-- Claim C10 witness: an entity with an assigned id and no locator entries
yields `ok` with the empty map. -/
theorem claim10_witness : Details lkW snap10 sideW "lonely" [] = .ok [] :=
  claim10_empty_result lkW snap10 sideW "lonely" [] "lonely" 2
    (by decide) (by decide) (by decide)

/-- Claim C4: a dataset whose deleted flag is set never appears in the map
returned by `Details`, for every scope including the empty one: all of its
locator entries are skipped during the scan (its id is absent from the
accumulator), and, provided no other dataset's result key collides with its
name, the result map has no entry under its name. -/
theorem claim4_deleted_excluded (snap : Snapshot) (side : SideState) (e : Nat)
    (scope : List Nat) (d : Nat)
    (hdel : IsDatasetDeleted side d = true) :
    assocGet d (detailsCommitted snap side e scope) = none ∧
    (∀ (r : List (String × ResVal)) (n : String),
      loadDetails snap side e scope = .ok r →
      LookupDatasetName side d = some n →
      (∀ p ∈ detailsCommitted snap side e scope, (writeKV snap side e p.1 p.2).1 ≠ n) →
      assocGet n r = none) := by
  constructor
  · by_cases hd : d = 0
    · rw [hd]
      exact detailsCommitted_get_zero snap side e scope
    · rw [detailsCommitted_get hd]
      apply lastVal_eq_none_of_not_hasKey
      cases hh : hasKey (keptProj side scope (locatorScan snap e)) d
      · rfl
      · exfalso
        obtain ⟨hk, -⟩ := (hasKey_keptProj_iff side scope _ d).mp hh
        unfold keepEntry at hk
        rw [hdel] at hk
        simp at hk
  · intro r n hok hname hno
    rw [loadDetails_ok_lookup hok]
    cases hlw : lastWrite snap side e (detailsCommitted snap side e scope) n with
    | none => rfl
    | some w =>
      exfalso
      obtain ⟨d', v', hm, hk⟩ :=
        (lastWrite_isSome_iff snap side e (detailsCommitted snap side e scope) n).mp
          (by rw [hlw]; rfl)
      exact hno (d', v') hm hk

/-- Claim C4 witness: flagging dataset 5 (`people`) deleted removes it from
the accumulator and from the result map, with empty scope. -/
theorem claim4_witness :
    assocGet 5 (detailsCommitted snapW sideDel 1 []) = none ∧
    assocGet "people" [("contacts", ResVal.entry 20 [20])] = none := by
  have h := claim4_deleted_excluded snapW sideDel 1 [] 5 (by decide)
  exact ⟨h.1, h.2 [("contacts", ResVal.entry 20 [20])] "people"
    (by decide) (by decide) (by decide)⟩

/-- Claim C2 counterexample: the claim that every lookup performed during a
`Details` call observes the snapshot fixed at transaction open — so that a
write committed after open never affects the result — is false: with the
key-value snapshot held fixed (the same `snapW` in both calls, as badger's
snapshot isolation guarantees), a dataset-deletion flag written to the live
registry after the transaction opened (`sideW` versus `sideDel`) changes the
call's result, because `IsDatasetDeleted`, `LookupDatasetName` and
`LookupDatasetIDs` are invoked on the store wrapper without the transaction. -/
theorem claim2_counterexample :
    Details lkW snapW sideW "ex:3" [] ≠ Details lkW snapW sideDel "ex:3" [] ∧
    Details lkW snapW sideW "ex:3" [] =
      .ok [("people", ResVal.entry 11 [10, 11]), ("contacts", ResVal.entry 20 [20])] ∧
    Details lkW snapW sideDel "ex:3" [] = .ok [("contacts", ResVal.entry 20 [20])] := by
  refine ⟨by decide, by decide, by decide⟩

/-- Claim C2 amended: entity-id resolution and the locator/change-log scans
observe the single snapshot fixed at transaction open, but the
dataset-deletion check, dataset-name resolution and dataset-scope resolution
read live registry state outside the transaction; consequently a write
committed after the transaction opens affects the call's result only through
those three registry views — if it leaves them unchanged (in particular any
write to the entity-id, locator or change-log indexes), the result is
unchanged. -/
theorem claim2_amended (lk : Lookup) (snap : Snapshot) (id : String)
    (names : List String) (side side' : SideState)
    (hdel : ∀ d, IsDatasetDeleted side d = IsDatasetDeleted side' d)
    (hname : ∀ d, LookupDatasetName side d = LookupDatasetName side' d)
    (hids : ∀ ns, LookupDatasetIDs side ns = LookupDatasetIDs side' ns) :
    Details lk snap side id names = Details lk snap side' id names :=
  Details_side_congr lk snap id names hdel hname hids

/-- Claim C2 witness: two structurally different live registry states with
equal registry views give equal results. -/
theorem claim2_witness :
    Details lkW snapW sideW "ex:3" [] = Details lkW snapW sideW2 "ex:3" [] := by
  apply claim2_amended lkW snapW "ex:3" [] sideW sideW2
  · intro d
    rfl
  · intro d
    unfold LookupDatasetName sideW sideW2
    by_cases h5 : (5 : Nat) = d
    · simp [assocGet, h5]
    · by_cases h7 : (7 : Nat) = d
      · simp [assocGet, h5, h7]
      · simp [assocGet, h5, h7]
  · intro ns
    unfold LookupDatasetIDs sideW sideW2
    induction ns with
    | nil => rfl
    | cons n rest ih =>
      rw [List.filterMap_cons, List.filterMap_cons, ih]
      by_cases hp : "people" = n
      · simp [assocGet, hp]
      · by_cases hc : "contacts" = n
        · simp [assocGet, hp, hc]
        · simp [assocGet, hp, hc]

/-- Claim C5: if a stored snapshot document that the call decodes — the
committed `latest` value of a dataset whose name resolves, or any change-log
entry of such a dataset — fails to decode, the whole `Details` call returns
an error, so no partial result map is returned. -/
theorem claim5_corrupt_aborts (lk : Lookup) (snap : Snapshot) (side : SideState)
    (id : String) (names : List String) (c : String) (e : Nat) (d : Nat) (v : Val)
    (h1 : lk.curieOf id = .ok c)
    (h2 : InternalIDForCURIE snap c = .ok e)
    (h3 : assocGet d (detailsCommitted snap side e (LookupDatasetIDs side names)) = some v)
    (h4 : (LookupDatasetName side d).isSome)
    (h5 : v = Val.corrupt ∨ ∃ q ∈ changesScan snap d e, q.2 = Val.corrupt) :
    ∃ err, Details lk snap side id names = .error err := by
  rw [Details_eq_loadDetails h1 h2]
  unfold loadDetails
  cases hb : buildResult snap side e
      (detailsCommitted snap side e (LookupDatasetIDs side names)) [] with
  | error err => exact ⟨err, rfl⟩
  | ok r =>
    exfalso
    have hclean := buildResult_ok_clean hb d v (mem_of_assocGet_eq_some h3) h4
    rcases h5 with h5 | h5
    · obtain ⟨dd, hdd⟩ := hclean.1
      rw [h5] at hdd
      exact absurd hdd (by simp [unmarshal])
    · obtain ⟨chs, hchs⟩ := hclean.2
      rw [loadChanges, loadChangesLoop_corrupt h5] at hchs
      exact absurd hchs (by simp)

/-- Claim C5 witness: a corrupt stored `latest` document aborts the call with
an error. -/
theorem claim5_witness : ∃ err, Details lkW snapC sideW "ex:3" [] = .error err :=
  claim5_corrupt_aborts lkW snapC sideW "ex:3" [] "ex:3" 1 5 Val.corrupt
    (by decide) (by decide) (by decide) (by decide) (Or.inl rfl)

/-- Claim C6: a dataset id surviving the locator scan whose display name does
not resolve does not make `Details` fail: if every surviving dataset whose
name does resolve decodes cleanly, the call succeeds; the unresolvable
dataset contributes a diagnostic placeholder under its stringified id (not a
`{latest, changes}` structure); and every surviving dataset with a resolvable
name still gets a normal `{latest, changes}` entry (key-collision freedom
assumed). -/
theorem claim6_placeholder (snap : Snapshot) (side : SideState) (e : Nat)
    (scope : List Nat) :
    ((∀ p ∈ detailsCommitted snap side e scope, (LookupDatasetName side p.1).isSome →
        p.2 ≠ Val.corrupt ∧ ∀ q ∈ changesScan snap p.1 e, q.2 ≠ Val.corrupt) →
      ∃ r, loadDetails snap side e scope = .ok r) ∧
    (∀ (r : List (String × ResVal)) (d : Nat) (v : Val),
      loadDetails snap side e scope = .ok r →
      assocGet d (detailsCommitted snap side e scope) = some v →
      LookupDatasetName side d = none →
      (∀ p ∈ detailsCommitted snap side e scope, p.1 ≠ d →
        (writeKV snap side e p.1 p.2).1 ≠ toString d) →
      assocGet (toString d) r = some ResVal.diag) ∧
    (∀ (r : List (String × ResVal)) (d' : Nat) (v' : Val) (n' : String),
      loadDetails snap side e scope = .ok r →
      assocGet d' (detailsCommitted snap side e scope) = some v' →
      LookupDatasetName side d' = some n' →
      (∀ p ∈ detailsCommitted snap side e scope, p.1 ≠ d' →
        (writeKV snap side e p.1 p.2).1 ≠ n') →
      ∃ doc chs, assocGet n' r = some (ResVal.entry doc chs)) := by
  refine ⟨?_, ?_, ?_⟩
  · intro hclean
    refine ⟨buildPure snap side e (detailsCommitted snap side e scope) [], ?_⟩
    unfold loadDetails
    exact buildResult_clean_ok (fun d v hm hs => hclean (d, v) hm hs) _
  · intro r d v hok hget hname hno
    rw [loadDetails_ok_lookup hok]
    have hkey : (writeKV snap side e d v).1 = toString d := by
      rw [writeKV, hname]
    have huniq : ∀ d2 v2, (d2, v2) ∈ detailsCommitted snap side e scope →
        (writeKV snap side e d2 v2).1 = toString d → d2 = d := by
      intro d2 v2 hm hk
      by_contra hne
      exact hno (d2, v2) hm hne hk
    rw [lastWrite_eq_of_unique snap side e (toString d) d v
      (detailsCommitted snap side e scope)
      (detailsCommitted_keysDistinct snap side e scope)
      (mem_of_assocGet_eq_some hget) hkey huniq]
    rw [writeKV, hname]
  · intro r d' v' n' hok hget hname hno
    rw [loadDetails_ok_lookup hok]
    have hkey : (writeKV snap side e d' v').1 = n' := by
      rw [writeKV, hname]
    have huniq : ∀ d2 v2, (d2, v2) ∈ detailsCommitted snap side e scope →
        (writeKV snap side e d2 v2).1 = n' → d2 = d' := by
      intro d2 v2 hm hk
      by_contra hne
      exact hno (d2, v2) hm hne hk
    rw [lastWrite_eq_of_unique snap side e n' d' v'
      (detailsCommitted snap side e scope)
      (detailsCommitted_keysDistinct snap side e scope)
      (mem_of_assocGet_eq_some hget) hkey huniq]
    refine ⟨decodeD v', (changesScan snap d' e).map fun q => decodeD q.2, ?_⟩
    rw [writeKV, hname]

/-- Claim C6 witness: with dataset 9 lacking a name, the call still succeeds,
the result holds a placeholder under `"9"`, and dataset 5 (`people`) is
returned normally. -/
theorem claim6_witness :
    (∃ r, loadDetails snap6 side6 1 [] = .ok r) ∧
    assocGet "9" [("people", ResVal.entry 1 [1]), ("9", ResVal.diag)] =
      some ResVal.diag ∧
    (∃ doc chs, assocGet "people" [("people", ResVal.entry 1 [1]), ("9", ResVal.diag)] =
      some (ResVal.entry doc chs)) := by
  have h := claim6_placeholder snap6 side6 1 []
  refine ⟨h.1 (by decide), ?_, ?_⟩
  · exact h.2.1 [("people", ResVal.entry 1 [1]), ("9", ResVal.diag)] 9 (Val.doc 2)
      (by decide) (by decide) (by decide) (by decide)
  · exact h.2.2 [("people", ResVal.entry 1 [1]), ("9", ResVal.diag)] 5 (Val.doc 1)
      "people" (by decide) (by decide) (by decide) (by decide)

/-- Claim C3: for a dataset present in a `Details` result (committed value
`v`, resolved name `n`, key-collision freedom), if the Locator Index's
highest-ordinal entry for the `(entity, dataset)` pair equals the Change
Log's final entry for the pair, then the returned `latest` document equals
the final element of the returned `changes` sequence, `changes` is exactly
the decoded change-log prefix scan collected oldest first, and (for a
well-formed store) that scan is in ascending key order. -/
theorem claim3_latest_is_last_change (lk : Lookup) (snap : Snapshot)
    (side : SideState) (id : String) (names : List String) (c : String) (e : Nat)
    (r : List (String × ResVal)) (d : Nat) (n : String) (v : Val)
    (hwf : snap.WF)
    (h1 : lk.curieOf id = .ok c)
    (h2 : InternalIDForCURIE snap c = .ok e)
    (h3 : Details lk snap side id names = .ok r)
    (h4 : assocGet d (detailsCommitted snap side e (LookupDatasetIDs side names)) = some v)
    (h5 : LookupDatasetName side d = some n)
    (h6 : ∀ p ∈ detailsCommitted snap side e (LookupDatasetIDs side names),
      p.1 ≠ d → (writeKV snap side e p.1 p.2).1 ≠ n)
    (h7 : lastChgVal snap d e = lastLocVal snap e d) :
    ∃ latest chs, assocGet n r = some (ResVal.entry latest chs) ∧
      chs.getLast? = some latest ∧
      chs = (changesScan snap d e).map (fun q => decodeD q.2) ∧
      (changesScan snap d e).Pairwise (fun a b => a.1.ordinal < b.1.ordinal) := by
  have hld : loadDetails snap side e (LookupDatasetIDs side names) = .ok r := by
    rw [← Details_eq_loadDetails h1 h2]
    exact h3
  have hkey : (writeKV snap side e d v).1 = n := by
    rw [writeKV, h5]
  have huniq : ∀ d2 v2, (d2, v2) ∈ detailsCommitted snap side e (LookupDatasetIDs side names) →
      (writeKV snap side e d2 v2).1 = n → d2 = d := by
    intro d2 v2 hm hk
    by_contra hne
    exact h6 (d2, v2) hm hne hk
  have hlook : assocGet n r = some (writeKV snap side e d v).2 := by
    rw [loadDetails_ok_lookup hld]
    exact lastWrite_eq_of_unique snap side e n d v
      (detailsCommitted snap side e (LookupDatasetIDs side names))
      (detailsCommitted_keysDistinct snap side e (LookupDatasetIDs side names))
      (mem_of_assocGet_eq_some h4) hkey huniq
  have hw2 : (writeKV snap side e d v).2 =
      ResVal.entry (decodeD v) ((changesScan snap d e).map fun q => decodeD q.2) := by
    rw [writeKV, h5]
  refine ⟨decodeD v, (changesScan snap d e).map fun q => decodeD q.2, ?_, ?_, rfl,
    changesScan_pairwise_ordinal hwf d e⟩
  · rw [hlook, hw2]
  · have hd0 : d ≠ 0 := by
      intro h0
      rw [h0, detailsCommitted_get_zero] at h4
      exact absurd h4 (by simp)
    have hlv : lastVal (keptProj side (LookupDatasetIDs side names) (locatorScan snap e)) d
        = some v := by
      rw [← detailsCommitted_get hd0]
      exact h4
    have hsome : (assocGet d (detailsCommitted snap side e
        (LookupDatasetIDs side names))).isSome = true := by
      rw [h4]
      rfl
    have hkeep : keepEntry side (LookupDatasetIDs side names) d = true :=
      (detailsCommitted_isSome_iff.mp hsome).2.1
    have hloc : lastLocVal snap e d = some v := by
      rw [← lastVal_keptProj_eq_lastLocVal hkeep]
      exact hlv
    have hchg : lastChgVal snap d e = some v := by
      rw [h7]
      exact hloc
    unfold lastChgVal at hchg
    cases hgl : (changesScan snap d e).getLast? with
    | none =>
      rw [hgl] at hchg
      exact absurd hchg (by simp)
    | some q =>
      rw [hgl] at hchg
      have hq : q.2 = v := Option.some.inj hchg
      rw [getLast?_map, hgl]
      rw [show Option.map (fun q => decodeD q.2)
        (some q) = some (decodeD q.2) from rfl, hq]

/-- Claim C3 witness: for `snapW`'s dataset 5 (`people`), where the locator's
highest-ordinal value equals the change log's final entry, `latest` equals
the last change. -/
theorem claim3_witness :
    ∃ latest chs,
      assocGet "people"
        [("people", ResVal.entry 11 [10, 11]), ("contacts", ResVal.entry 20 [20])] =
        some (ResVal.entry latest chs) ∧
      chs.getLast? = some latest ∧
      chs = (changesScan snapW 5 1).map (fun q => decodeD q.2) ∧
      (changesScan snapW 5 1).Pairwise (fun a b => a.1.ordinal < b.1.ordinal) :=
  claim3_latest_is_last_change lkW snapW sideW "ex:3" [] "ex:3" 1
    [("people", ResVal.entry 11 [10, 11]), ("contacts", ResVal.entry 20 [20])]
    5 "people" (Val.doc 11) (by decide) (by decide) (by decide) (by decide)
    (by decide) (by decide) (by decide) (by decide)

/-- Claim C1 counterexample: a non-empty `datasetNames` filter whose names
all fail to resolve yields an empty resolved scope, and the call then
behaves as unrestricted — the result contains all of the entity's datasets —
rather than containing no datasets as the claim requires. -/
theorem claim1_counterexample :
    (["unknown-name"] : List String) ≠ [] ∧
    LookupDatasetIDs sideW ["unknown-name"] = [] ∧
    Details lkW snapW sideW "ex:3" ["unknown-name"] =
      .ok [("people", ResVal.entry 11 [10, 11]), ("contacts", ResVal.entry 20 [20])] ∧
    Details lkW snapW sideW "ex:3" ["unknown-name"] ≠ .ok [] := by
  refine ⟨by decide, by decide, by decide, by decide⟩

/-- Claim C1 amended: for a filter whose resolved internal-id set is
non-empty, the result's key set is exactly the names of the resolved ids
intersected with the datasets the entity appears in, minus deleted ones
(assuming locator entries carry no sentinel id 0 and all surviving ids have
resolvable names); but when the filter resolves to the empty id set — for
example when every supplied name is unknown and silently dropped — the call
is unrestricted, behaving exactly as with an empty filter, instead of
returning no datasets. -/
theorem claim1_amended (lk : Lookup) (snap : Snapshot) (side : SideState)
    (id : String) (names : List String) (c : String) (e : Nat)
    (r : List (String × ResVal))
    (h1 : lk.curieOf id = .ok c)
    (h2 : InternalIDForCURIE snap c = .ok e)
    (h3 : Details lk snap side id names = .ok r)
    (h0 : ∀ q ∈ locatorScan snap e, q.1.dataset ≠ 0)
    (hnames : ∀ p ∈ detailsCommitted snap side e (LookupDatasetIDs side names),
      (LookupDatasetName side p.1).isSome) :
    (LookupDatasetIDs side names ≠ [] →
      ∀ nm : String, (assocGet nm r).isSome = true ↔
        ∃ d, LookupDatasetName side d = some nm ∧
          d ∈ LookupDatasetIDs side names ∧ appears snap e d = true ∧
          IsDatasetDeleted side d = false) ∧
    (LookupDatasetIDs side names = [] →
      Details lk snap side id names = Details lk snap side id []) := by
  have hld : loadDetails snap side e (LookupDatasetIDs side names) = .ok r := by
    rw [← Details_eq_loadDetails h1 h2]
    exact h3
  constructor
  · intro hne nm
    constructor
    · intro hs
      rw [loadDetails_ok_lookup hld] at hs
      obtain ⟨d, v, hm, hk⟩ :=
        (lastWrite_isSome_iff snap side e
          (detailsCommitted snap side e (LookupDatasetIDs side names)) nm).mp hs
      have hnm : (LookupDatasetName side d).isSome := hnames (d, v) hm
      obtain ⟨n0, hn0⟩ := Option.isSome_iff_exists.mp hnm
      rw [writeKV, hn0] at hk
      have hkey : n0 = nm := hk
      have hsome : (assocGet d (detailsCommitted snap side e
          (LookupDatasetIDs side names))).isSome = true := assocGet_isSome_of_mem hm
      obtain ⟨hd0, hkeep, happ⟩ := detailsCommitted_isSome_iff.mp hsome
      obtain ⟨hdel, hmem⟩ := (keepEntry_iff_of_ne_nil hne).mp hkeep
      exact ⟨d, hkey ▸ hn0, hmem, happ, hdel⟩
    · rintro ⟨d, hn, hmem, happ, hdel⟩
      rw [loadDetails_ok_lookup hld]
      have happ' := happ
      rw [appears_iff] at happ'
      obtain ⟨q, hq, hqd⟩ := happ'
      have hd0 : d ≠ 0 := by
        rw [← hqd]
        exact h0 q hq
      have hkeep : keepEntry side (LookupDatasetIDs side names) d = true :=
        (keepEntry_iff_of_ne_nil hne).mpr ⟨hdel, hmem⟩
      have hsome : (assocGet d (detailsCommitted snap side e
          (LookupDatasetIDs side names))).isSome = true :=
        detailsCommitted_isSome_iff.mpr ⟨hd0, hkeep, happ⟩
      obtain ⟨v, hv⟩ := Option.isSome_iff_exists.mp hsome
      apply (lastWrite_isSome_iff snap side e
        (detailsCommitted snap side e (LookupDatasetIDs side names)) nm).mpr
      refine ⟨d, v, mem_of_assocGet_eq_some hv, ?_⟩
      rw [writeKV, hn]
  · intro hempty
    unfold Details
    cases hc : lk.curieOf id with
    | error err => rw [except_bind_error, except_bind_error]
    | ok curie =>
      rw [except_bind_ok, except_bind_ok]
      cases hi : InternalIDForCURIE snap curie with
      | error err => rw [except_bind_error, except_bind_error]
      | ok e2 =>
        rw [except_bind_ok, except_bind_ok]
        show loadDetails snap side e2 (LookupDatasetIDs side names) =
          loadDetails snap side e2 (LookupDatasetIDs side [])
        rw [hempty]
        rfl

/-- Claim C1 witness: for the filter `["contacts"]` (resolving to `[7]`, a
non-empty scope) the result's keys are characterized by the resolved
intersection. -/
theorem claim1_witness :
    (assocGet "contacts" [("contacts", ResVal.entry 20 [20])]).isSome = true ↔
      ∃ d, LookupDatasetName sideW d = some "contacts" ∧
        d ∈ LookupDatasetIDs sideW ["contacts"] ∧ appears snapW 1 d = true ∧
        IsDatasetDeleted sideW d = false := by
  have h := claim1_amended lkW snapW sideW "ex:3" ["contacts"] "ex:3" 1
    [("contacts", ResVal.entry 20 [20])] (by decide) (by decide) (by decide)
    (by decide) (by decide)
  exact h.1 (by decide) "contacts"
